import Mathlib

/-!
Verification of the streaming data-generation and aggregation engine of
`app.py` (syringe inspection simulator).

The embedding models:
  * a log row (pandas DataFrame row with columns TAGNAME / TAGVALUE / TIMESTAMP)
    as a `Row` structure; the loosely typed TAGVALUE column (integer counts for
    tag-1..tag-5, a batch-name string for tag-0) becomes the sum type `TagValue`;
  * `generate_interval_data` (app.py lines 38-66); Python floats are modelled by
    exact rationals and Python `int(...)` truncation by `pyInt`;
  * `update_cumulative_data` (lines 68-79) over lists standing for DataFrames,
    with pandas `cumsum` as `cumsumRows`;
  * the Start/Stop button handler (lines 155-165), the streaming tick
    (lines 174-202) and the metrics block (lines 190-200), with the session
    state as `AppState` and Python exceptions as `Except`.
-/

set_option linter.unusedVariables false

/-- The TAGVALUE column holds either a number or a string (batch label). -/
inductive TagValue : Type where
  | num : ℤ → TagValue
  | str : String → TagValue
deriving DecidableEq, Repr

/-- One row of the tabular log: columns TAGNAME, TAGVALUE, TIMESTAMP.
Timestamps are abstracted to naturals (ticks of `datetime.now()`). -/
structure Row : Type where
  tagname : String
  tagvalue : TagValue
  timestamp : ℕ
deriving DecidableEq, Repr

/-- Sidebar configuration read by the generator (app.py lines 26-36).
Rates are percentages (sliders bounded to [0,5]); inspections per interval is
an integer slider bounded to [100,1000]. -/
structure Config : Type where
  defect_rate_1 : ℚ
  defect_rate_2 : ℚ
  defect_rate_3 : ℚ
  inspections_per_interval : ℕ
deriving DecidableEq, Repr

/-- Python `int(q)`: truncation toward zero. -/
def pyInt (q : ℚ) : ℤ := if 0 ≤ q then ⌊q⌋ else -⌊-q⌋

/-- Slider bounds of app.py lines 31-36. -/
def validConfig (cfg : Config) : Prop :=
  0 ≤ cfg.defect_rate_1 ∧ cfg.defect_rate_1 ≤ 5 ∧
  0 ≤ cfg.defect_rate_2 ∧ cfg.defect_rate_2 ≤ 5 ∧
  0 ≤ cfg.defect_rate_3 ∧ cfg.defect_rate_3 ≤ 5 ∧
  100 ≤ cfg.inspections_per_interval ∧ cfg.inspections_per_interval ≤ 1000

/-- `np.random.randint(-2, 3)` draws an integer in [-2, 2]. -/
def validNoise (n : ℤ) : Prop := -2 ≤ n ∧ n ≤ 2

/-- `generate_interval_data` (app.py lines 38-66).  The three noise draws are
explicit parameters.  The `total_defects` of line 46 is dead: line 57 recomputes
it from the clamped values before any row is built. -/
def generate_interval_data (timestamp : ℕ) (cfg : Config) (n1 n2 n3 : ℤ) :
    List Row :=
  let defects_1 := pyInt ((cfg.inspections_per_interval : ℚ) * (cfg.defect_rate_1 / 100))
  let defects_2 := pyInt ((cfg.inspections_per_interval : ℚ) * (cfg.defect_rate_2 / 100))
  let defects_3 := pyInt ((cfg.inspections_per_interval : ℚ) * (cfg.defect_rate_3 / 100))
  let defects_1 := defects_1 + n1
  let defects_2 := defects_2 + n2
  let defects_3 := defects_3 + n3
  let defects_1 := max 0 defects_1
  let defects_2 := max 0 defects_2
  let defects_3 := max 0 defects_3
  let total_defects := defects_1 + defects_2 + defects_3
  [ ⟨"tag-1", TagValue.num defects_1, timestamp⟩,
    ⟨"tag-2", TagValue.num defects_2, timestamp⟩,
    ⟨"tag-3", TagValue.num defects_3, timestamp⟩,
    ⟨"tag-4", TagValue.num total_defects, timestamp⟩,
    ⟨"tag-5", TagValue.num (cfg.inspections_per_interval : ℤ), timestamp⟩ ]

/-- Pandas elementwise `+` as used by `cumsum` on the loosely typed TAGVALUE
column: numbers add, strings concatenate.  A mixed pair raises `TypeError` in
pandas; that case is unreachable here because `cumsum` is only ever applied to
rows filtered to tag-4 / tag-5, whose values are numbers in every log the
theorems consider (they carry that hypothesis explicitly). -/
def TagValue.add : TagValue → TagValue → TagValue
  | TagValue.num a, TagValue.num b => TagValue.num (a + b)
  | TagValue.str a, TagValue.str b => TagValue.str (a ++ b)
  | a, _ => a

/-- `tag_data['TAGVALUE'].cumsum()` (app.py line 75): replace each value by the
running total of the values so far.  The accumulator is `none` before the first
row, so the first output value is the first input value. -/
def cumsumRows (acc : Option TagValue) : List Row → List Row
  | [] => []
  | r :: rs =>
    let v := match acc with
      | none => r.tagvalue
      | some a => TagValue.add a r.tagvalue
    { r with tagvalue := v } :: cumsumRows (some v) rs

/-- Streamlit session state (app.py lines 13-20). -/
structure AppState : Type where
  streaming : Bool
  data : List Row
  start_time : ℕ
  cumulative_data : List Row
deriving DecidableEq, Repr

/-- The session state right after initialization (empty log, empty view). -/
def initialState : AppState := ⟨false, [], 0, []⟩

/-- One iteration of the `for tag in ['tag-4', 'tag-5']` loop of
`update_cumulative_data` (app.py lines 72-76): the cumulative frame for one
tag, or nothing when that tag has no rows (`if not tag_data.empty`). -/
def cumulativePart (data : List Row) (tag : String) : Option (List Row) :=
  let tag_data := data.filter fun r => r.tagname == tag
  if tag_data.isEmpty then none else some (cumsumRows none tag_data)

/-- The local `cumulative_data` list built by `update_cumulative_data`
(app.py lines 70-76): one cumulative frame per tag in [tag-4, tag-5] whose
filtered rows are nonempty. -/
def cumulativeParts (data : List Row) : List (List Row) :=
  ["tag-4", "tag-5"].filterMap (cumulativePart data)

/-- The Cumulative View a recomputation returns: `pd.concat` of the per-tag
cumulative frames (app.py line 79). -/
def recomputeView (data : List Row) : List Row := (cumulativeParts data).flatten

/-- `update_cumulative_data` (app.py lines 68-79): recompute the per-tag
cumulative frames from the log and overwrite the stored view, but only when at
least one of the two tags has rows (the `if cumulative_data:` guard, line 78).
-/
def update_cumulative_data (s : AppState) : AppState :=
  if (cumulativeParts s.data).isEmpty then s
  else { s with cumulative_data := recomputeView s.data }

/-- Numeric reading of a TAGVALUE; the theorems below only apply it to values
known (by hypothesis) to be numeric. -/
def numVal : TagValue → ℤ
  | TagValue.num n => n
  | TagValue.str _ => 0

/-- The running total at position i of a filtered tag sequence: the sum of the
first i+1 values (the prefix sum the spec defines for the Cumulative View). -/
def prefixTotal (td : List Row) (i : ℕ) : ℤ :=
  ((td.take (i + 1)).map fun x => numVal x.tagvalue).sum

/-- Witness for C2: a three-row log with two tag-4 rows and one tag-5 row. -/
def logW : List Row :=
  [ ⟨"tag-4", TagValue.num 3, 0⟩,
    ⟨"tag-5", TagValue.num 100, 0⟩,
    ⟨"tag-4", TagValue.num 2, 1⟩ ]

/-- The Stopped → Running branch of the Start/Stop handler (app.py lines
157-165): record the start time and append a tag-0 batch marker carrying the
batch name, timestamped with the recorded start time. -/
def startStream (s : AppState) (batch_name : String) (now : ℕ) : AppState :=
  { s with streaming := true, start_time := now,
           data := s.data ++ [⟨"tag-0", TagValue.str batch_name, now⟩] }

/-- The Start/Stop button handler (app.py lines 155-165): flip the streaming
flag; when the new state is streaming, run the start branch. -/
def pressStartStop (s : AppState) (batch_name : String) (now : ℕ) : AppState :=
  if s.streaming then { s with streaming := false }
  else startStream s batch_name now

/-- One iteration of the streaming loop body (app.py lines 174-181): generate
an interval, append it to the log, recompute the cumulative view.  Plot
rendering and the metrics display (lines 183-200) read the state without
changing it. -/
def tickStep (s : AppState) (cfg : Config) (now : ℕ) (n1 n2 n3 : ℤ) : AppState :=
  update_cumulative_data
    { s with data := s.data ++ generate_interval_data now cfg n1 n2 n3 }

/-- Session states reachable from initialization through button presses and
streaming-loop iterations, with slider values inside their UI bounds and the
noise draws in the range of `np.random.randint(-2, 3)`. -/
inductive Reachable : AppState → Prop where
  | init : Reachable initialState
  | press (s : AppState) (b : String) (t : ℕ) (hs : Reachable s) :
      Reachable (pressStartStop s b t)
  | tick (s : AppState) (cfg : Config) (t : ℕ) (n1 n2 n3 : ℤ)
      (hs : Reachable s) (hcfg : validConfig cfg)
      (h1 : validNoise n1) (h2 : validNoise n2) (h3 : validNoise n3) :
      Reachable (tickStep s cfg t n1 n2 n3)

/-- The four summary metrics of the metrics block (app.py lines 196-200). -/
structure Metrics : Type where
  total_inspected : ℤ
  total_defects : ℤ
  defect_rate : ℚ
  batch : String
deriving DecidableEq, Repr

/-- `df.groupby('TAGNAME').last().loc[tag, 'TAGVALUE']`: the most recent row
of the given tag, when the tag occurs at all. -/
def lastByTag (rows : List Row) (tag : String) : Option Row :=
  (rows.filter fun r => r.tagname == tag).getLast?

/-- The metrics block of the streaming loop (app.py lines 190-200).  It is
rendered only when both the log and the cumulative view are nonempty (the
`if not latest_data.empty and not cumulative_data.empty` guard); `Except.ok
none` models the guard skipping the block, so that no metric is rendered.
Inside the block, `.loc` on a missing tag raises KeyError, `int(...)` of a
string raises TypeError, and the defect-rate division `tag-4 / tag-5 * 100`
raises ZeroDivisionError when the inspected total is 0. -/
def metricsBlock (s : AppState) (batch_name : String) :
    Except String (Option Metrics) :=
  if s.data.isEmpty || s.cumulative_data.isEmpty then Except.ok none
  else
    match lastByTag s.cumulative_data "tag-5", lastByTag s.cumulative_data "tag-4" with
    | some r5, some r4 =>
      match r5.tagvalue, r4.tagvalue with
      | TagValue.num i, TagValue.num d =>
        if i = 0 then Except.error "ZeroDivisionError"
        else Except.ok (some ⟨i, d, (d : ℚ) / (i : ℚ) * 100, batch_name⟩)
      | _, _ => Except.error "TypeError"
    | _, _ => Except.error "KeyError"

/-- Invariant of reachable session states: the stored cumulative view is the
recomputation of the log; tag-4 and tag-5 rows come in matched numbers; tag-4
values are numeric and nonnegative; tag-5 values are numeric and at least 100.
-/
def StateInv (s : AppState) : Prop :=
  s.cumulative_data = recomputeView s.data ∧
  (s.data.filter fun r => r.tagname == "tag-4").length =
      (s.data.filter fun r => r.tagname == "tag-5").length ∧
  (∀ r ∈ s.data, r.tagname = "tag-4" →
      ∃ n : ℤ, r.tagvalue = TagValue.num n ∧ 0 ≤ n) ∧
  (∀ r ∈ s.data, r.tagname = "tag-5" →
      ∃ n : ℤ, r.tagvalue = TagValue.num n ∧ 100 ≤ n)

/-- Default slider configuration: rates (1.0, 1.5, 0.8), 500 inspections. -/
def cfgW : Config := ⟨1, 3/2, 4/5, 500⟩

/-- A sample reachable state: one start press at time 0, one tick at time 1
with the default configuration and zero noise. -/
def sW : AppState := tickStep (pressStartStop initialState "Batch-1" 0) cfgW 1 0 0 0

/-- C1: in each generated interval the tag-4 value is the sum of the emitted
tag-1..tag-3 values (post noise and clamping), each of which is ≥ 0. -/
theorem generator_tag4_sum_invariant (ts : ℕ) (cfg : Config) (n1 n2 n3 : ℤ)
    (hcfg : validConfig cfg)
    (h1 : validNoise n1) (h2 : validNoise n2) (h3 : validNoise n3) :
    ∃ v1 v2 v3 : ℤ, 0 ≤ v1 ∧ 0 ≤ v2 ∧ 0 ≤ v3 ∧
      generate_interval_data ts cfg n1 n2 n3 =
        [ ⟨"tag-1", TagValue.num v1, ts⟩,
          ⟨"tag-2", TagValue.num v2, ts⟩,
          ⟨"tag-3", TagValue.num v3, ts⟩,
          ⟨"tag-4", TagValue.num (v1 + v2 + v3), ts⟩,
          ⟨"tag-5", TagValue.num (cfg.inspections_per_interval : ℤ), ts⟩ ] := by
  refine ⟨_, _, _, le_max_left 0 _, le_max_left 0 _, le_max_left 0 _, rfl⟩

/-- Witness for C1 at the default configuration with zero noise. -/
theorem generator_tag4_sum_invariant_witness :
    ∃ v1 v2 v3 : ℤ, 0 ≤ v1 ∧ 0 ≤ v2 ∧ 0 ≤ v3 ∧
      generate_interval_data 0 ⟨1, 3/2, 4/5, 500⟩ 0 0 0 =
        [ ⟨"tag-1", TagValue.num v1, 0⟩,
          ⟨"tag-2", TagValue.num v2, 0⟩,
          ⟨"tag-3", TagValue.num v3, 0⟩,
          ⟨"tag-4", TagValue.num (v1 + v2 + v3), 0⟩,
          ⟨"tag-5", TagValue.num ((500 : ℕ) : ℤ), 0⟩ ] :=
  generator_tag4_sum_invariant 0 ⟨1, 3/2, 4/5, 500⟩ 0 0 0
    (by refine ⟨by norm_num, by norm_num, by norm_num, by norm_num, by norm_num,
          by norm_num, by norm_num, by norm_num⟩)
    ⟨by norm_num, by norm_num⟩ ⟨by norm_num, by norm_num⟩ ⟨by norm_num, by norm_num⟩

/-- C5: with rates (1.0, 1.5, 0.8), 500 inspections and zero noise, one
invocation yields per-category defects (5, 7, 4), tag-4 = 16, tag-5 = 500,
each base value being the floor of inspections * rate / 100. -/
theorem scenario_defaults_exact_values :
    generate_interval_data 0 ⟨1, 3/2, 4/5, 500⟩ 0 0 0 =
      [ ⟨"tag-1", TagValue.num 5, 0⟩,
        ⟨"tag-2", TagValue.num 7, 0⟩,
        ⟨"tag-3", TagValue.num 4, 0⟩,
        ⟨"tag-4", TagValue.num 16, 0⟩,
        ⟨"tag-5", TagValue.num 500, 0⟩ ] := by
  have e1 : pyInt (((500 : ℕ) : ℚ) * ((1 : ℚ) / 100)) = 5 := by
    rw [pyInt, if_pos (by norm_num), Int.floor_eq_iff] <;> norm_num
  have e2 : pyInt (((500 : ℕ) : ℚ) * ((3 / 2 : ℚ) / 100)) = 7 := by
    rw [pyInt, if_pos (by norm_num), Int.floor_eq_iff] <;> norm_num
  have e3 : pyInt (((500 : ℕ) : ℚ) * ((4 / 5 : ℚ) / 100)) = 4 := by
    rw [pyInt, if_pos (by norm_num), Int.floor_eq_iff] <;> norm_num
  simp only [generate_interval_data, e1, e2, e3]
  norm_num

/-- C6: the tag-5 row of every generated interval carries exactly the
configured inspections_per_interval, untouched by noise or clamping. -/
theorem generator_tag5_passthrough (ts : ℕ) (cfg : Config) (n1 n2 n3 : ℤ) :
    (generate_interval_data ts cfg n1 n2 n3).filter
        (fun r => r.tagname == "tag-5") =
      [⟨"tag-5", TagValue.num (cfg.inspections_per_interval : ℤ), ts⟩] := by
  simp [generate_interval_data, List.filter]

theorem cumsumRows_length (acc : Option TagValue) (td : List Row) :
    (cumsumRows acc td).length = td.length := by
  induction td generalizing acc with
  | nil => rfl
  | cons x xs ih => simp [cumsumRows, ih]

theorem cumsumRows_get?_acc (td : List Row)
    (h : ∀ r ∈ td, ∃ n : ℤ, r.tagvalue = TagValue.num n) :
    ∀ (a : ℤ) (i : ℕ) (r : Row), td.get? i = some r →
      (cumsumRows (some (TagValue.num a)) td).get? i =
        some { r with tagvalue := TagValue.num (a + prefixTotal td i) } := by
  induction td with
  | nil => intro a i r hr; simp at hr
  | cons x xs ih =>
    intro a i r hr
    obtain ⟨m, hm⟩ := h x (by simp)
    cases i with
    | zero =>
      simp at hr
      subst hr
      simp [cumsumRows, hm, TagValue.add, prefixTotal, numVal]
    | succ i =>
      simp only [List.get?] at hr
      have hxs : ∀ r ∈ xs, ∃ n : ℤ, r.tagvalue = TagValue.num n :=
        fun r hr => h r (by simp [hr])
      have hrec := ih hxs (a + m) i r hr
      simp only [cumsumRows, hm, TagValue.add, List.get?]
      rw [hrec]
      simp [prefixTotal, List.take_succ_cons, numVal, hm, add_assoc]

theorem cumsumRows_get?_none (td : List Row)
    (h : ∀ r ∈ td, ∃ n : ℤ, r.tagvalue = TagValue.num n) :
    ∀ (i : ℕ) (r : Row), td.get? i = some r →
      (cumsumRows none td).get? i =
        some { r with tagvalue := TagValue.num (prefixTotal td i) } := by
  cases td with
  | nil => intro i r hr; simp at hr
  | cons x xs =>
    intro i r hr
    obtain ⟨m, hm⟩ := h x (by simp)
    cases i with
    | zero =>
      simp at hr
      subst hr
      simp [cumsumRows, hm, prefixTotal, numVal]
    | succ i =>
      simp only [List.get?] at hr
      have hxs : ∀ r ∈ xs, ∃ n : ℤ, r.tagvalue = TagValue.num n :=
        fun r hr => h r (by simp [hr])
      have hrec := cumsumRows_get?_acc xs hxs m i r hr
      simp only [cumsumRows, hm, List.get?]
      rw [hrec]
      simp [prefixTotal, List.take_succ_cons, numVal, hm]

theorem mem_cumsumRows_tagname (td : List Row) :
    ∀ (acc : Option TagValue), ∀ r ∈ cumsumRows acc td,
      ∃ x ∈ td, r.tagname = x.tagname := by
  induction td with
  | nil => intro acc r hr; simp [cumsumRows] at hr
  | cons y ys ih =>
    intro acc r hr
    simp only [cumsumRows, List.mem_cons] at hr
    rcases hr with hr | hr
    · exact ⟨y, by simp, by simp [hr]⟩
    · obtain ⟨x, hx, he⟩ := ih _ r hr
      exact ⟨x, by simp [hx], he⟩

theorem cumulativePart_getD (data : List Row) (tag : String) :
    (cumulativePart data tag).getD [] =
      cumsumRows none (data.filter fun r => r.tagname == tag) := by
  rcases h : data.filter fun r => r.tagname == tag with _ | ⟨x, xs⟩ <;>
    simp [cumulativePart, h, cumsumRows]

theorem recomputeView_eq (data : List Row) :
    recomputeView data =
      cumsumRows none (data.filter fun r => r.tagname == "tag-4") ++
      cumsumRows none (data.filter fun r => r.tagname == "tag-5") := by
  rw [← cumulativePart_getD data "tag-4", ← cumulativePart_getD data "tag-5"]
  unfold recomputeView cumulativeParts
  rcases hc4 : cumulativePart data "tag-4" with _ | c4 <;>
    rcases hc5 : cumulativePart data "tag-5" with _ | c5 <;>
      simp [List.filterMap_cons, hc4, hc5]

theorem filter_recomputeView (data : List Row) (t : String)
    (ht : t = "tag-4" ∨ t = "tag-5") :
    (recomputeView data).filter (fun r => r.tagname == t) =
      cumsumRows none (data.filter fun r => r.tagname == t) := by
  have own : ∀ u : String,
      (cumsumRows none (data.filter fun r => r.tagname == u)).filter
          (fun r => r.tagname == u) =
        cumsumRows none (data.filter fun r => r.tagname == u) := by
    intro u
    refine List.filter_eq_self.mpr fun r hr => ?_
    obtain ⟨x, hx, he⟩ := mem_cumsumRows_tagname _ _ r hr
    have hxu : (x.tagname == u) = true := (List.mem_filter.mp hx).2
    rw [he]
    exact hxu
  have other : ∀ u v : String, u ≠ v →
      (cumsumRows none (data.filter fun r => r.tagname == v)).filter
          (fun r => r.tagname == u) = [] := by
    intro u v huv
    refine List.filter_eq_nil_iff.mpr fun r hr => ?_
    obtain ⟨x, hx, he⟩ := mem_cumsumRows_tagname _ _ r hr
    have hxv : (x.tagname == v) = true := (List.mem_filter.mp hx).2
    have hrv : r.tagname = v := by rw [he]; exact eq_of_beq hxv
    simp only [hrv, beq_iff_eq]
    exact fun h => huv h.symm
  rcases ht with ht | ht <;> subst ht <;>
    rw [recomputeView_eq, List.filter_append, own]
  · rw [other "tag-4" "tag-5" (by decide), List.append_nil]
  · rw [other "tag-5" "tag-4" (by decide), List.nil_append]

/-- C2: recomputing the cumulative view yields, for each tag in
[tag-4, tag-5], exactly the log-ordered rows of that tag with each value
replaced by the running prefix sum (position i carries the sum of values
0..i), the timestamps untouched; a tag with no rows in the log yields the
empty sequence (the recomputation is a total function, so no error). -/
theorem recompute_cumulative_prefix_sums (data : List Row) (t : String)
    (ht : t = "tag-4" ∨ t = "tag-5")
    (hwf : ∀ r ∈ data, r.tagname = t → ∃ n : ℤ, r.tagvalue = TagValue.num n) :
    ((recomputeView data).filter fun x => x.tagname == t).length =
        (data.filter fun x => x.tagname == t).length ∧
    (∀ (i : ℕ) (r : Row), (data.filter fun x => x.tagname == t).get? i = some r →
      ((recomputeView data).filter fun x => x.tagname == t).get? i =
        some { r with tagvalue :=
          TagValue.num (prefixTotal (data.filter fun x => x.tagname == t) i) }) ∧
    ((data.filter fun x => x.tagname == t) = [] →
      (recomputeView data).filter (fun x => x.tagname == t) = []) := by
  have hfil := filter_recomputeView data t ht
  have hwf2 : ∀ r ∈ data.filter fun x => x.tagname == t,
      ∃ n : ℤ, r.tagvalue = TagValue.num n := by
    intro r hr
    have hm := List.mem_filter.mp hr
    exact hwf r hm.1 (eq_of_beq hm.2)
  refine ⟨?_, ?_, ?_⟩
  · rw [hfil]; exact cumsumRows_length _ _
  · intro i r hr
    rw [hfil]
    exact cumsumRows_get?_none _ hwf2 i r hr
  · intro h
    rw [hfil, h]
    rfl

theorem recompute_cumulative_prefix_sums_witness :
    ((recomputeView logW).filter fun x => x.tagname == "tag-4").length =
        (logW.filter fun x => x.tagname == "tag-4").length ∧
    (∀ (i : ℕ) (r : Row), (logW.filter fun x => x.tagname == "tag-4").get? i = some r →
      ((recomputeView logW).filter fun x => x.tagname == "tag-4").get? i =
        some { r with tagvalue :=
          TagValue.num (prefixTotal (logW.filter fun x => x.tagname == "tag-4") i) }) ∧
    ((logW.filter fun x => x.tagname == "tag-4") = [] →
      (recomputeView logW).filter (fun x => x.tagname == "tag-4") = []) :=
  recompute_cumulative_prefix_sums logW "tag-4" (Or.inl rfl) (by
    intro r hr hname
    simp only [logW, List.mem_cons, List.not_mem_nil, or_false] at hr
    rcases hr with rfl | rfl | rfl
    · exact ⟨3, rfl⟩
    · exact ⟨100, rfl⟩
    · exact ⟨2, rfl⟩)

/-- C9: recomputing the cumulative view twice with no intervening append gives
exactly the session state obtained by recomputing once. -/
theorem recompute_idempotent (s : AppState) :
    update_cumulative_data (update_cumulative_data s) = update_cumulative_data s := by
  by_cases h : (cumulativeParts s.data).isEmpty <;>
    simp [update_cumulative_data, h]

/-- C10: on a log with no tag-4 and no tag-5 rows (e.g. empty, or holding only
tag-0 batch markers), `update_cumulative_data` leaves the session state — in
particular the stored cumulative view — exactly unchanged. -/
theorem update_cumulative_frame (s : AppState)
    (h : ∀ r ∈ s.data, r.tagname ≠ "tag-4" ∧ r.tagname ≠ "tag-5") :
    update_cumulative_data s = s := by
  have h4 : s.data.filter (fun r => r.tagname == "tag-4") = [] :=
    List.filter_eq_nil_iff.mpr fun r hr => by simpa using (h r hr).1
  have h5 : s.data.filter (fun r => r.tagname == "tag-5") = [] :=
    List.filter_eq_nil_iff.mpr fun r hr => by simpa using (h r hr).2
  simp [update_cumulative_data, cumulativeParts, cumulativePart, h4, h5]

/-- Witness for C10: a log holding only the initial batch marker. -/
theorem update_cumulative_frame_witness :
    update_cumulative_data ⟨false, [⟨"tag-0", TagValue.str "Batch-1", 0⟩], 0, []⟩ =
      ⟨false, [⟨"tag-0", TagValue.str "Batch-1", 0⟩], 0, []⟩ :=
  update_cumulative_frame _ (by decide)

/-- Shape of one generator invocation: three clamped nonnegative per-category
values, their sum as tag-4, and the inspections count as tag-5. -/
theorem generate_shape (ts : ℕ) (cfg : Config) (n1 n2 n3 : ℤ) :
    ∃ v1 v2 v3 : ℤ, 0 ≤ v1 ∧ 0 ≤ v2 ∧ 0 ≤ v3 ∧
      generate_interval_data ts cfg n1 n2 n3 =
        [ ⟨"tag-1", TagValue.num v1, ts⟩,
          ⟨"tag-2", TagValue.num v2, ts⟩,
          ⟨"tag-3", TagValue.num v3, ts⟩,
          ⟨"tag-4", TagValue.num (v1 + v2 + v3), ts⟩,
          ⟨"tag-5", TagValue.num (cfg.inspections_per_interval : ℤ), ts⟩ ] :=
  ⟨_, _, _, le_max_left 0 _, le_max_left 0 _, le_max_left 0 _, rfl⟩

theorem recomputeView_append_irrelevant (data l : List Row)
    (h : ∀ r ∈ l, r.tagname ≠ "tag-4" ∧ r.tagname ≠ "tag-5") :
    recomputeView (data ++ l) = recomputeView data := by
  have h4 : l.filter (fun r => r.tagname == "tag-4") = [] :=
    List.filter_eq_nil_iff.mpr fun r hr => by simpa using (h r hr).1
  have h5 : l.filter (fun r => r.tagname == "tag-5") = [] :=
    List.filter_eq_nil_iff.mpr fun r hr => by simpa using (h r hr).2
  rw [recomputeView_eq, recomputeView_eq, List.filter_append, List.filter_append,
    h4, h5, List.append_nil, List.append_nil]

theorem update_cumulative_of_tag4_nonempty (s : AppState)
    (h : s.data.filter (fun r => r.tagname == "tag-4") ≠ []) :
    update_cumulative_data s = { s with cumulative_data := recomputeView s.data } := by
  have hc : cumulativePart s.data "tag-4" =
      some (cumsumRows none (s.data.filter fun r => r.tagname == "tag-4")) := by
    simp [cumulativePart, List.isEmpty_iff, h]
  have hne : (cumulativeParts s.data).isEmpty = false := by
    simp [cumulativeParts, List.filterMap_cons, hc]
  simp [update_cumulative_data, hne]

theorem inv_press (s : AppState) (b : String) (t : ℕ) (hinv : StateInv s) :
    StateInv (pressStartStop s b t) := by
  obtain ⟨hc, hl, h4, h5⟩ := hinv
  unfold pressStartStop startStream
  by_cases hstr : s.streaming
  · rw [if_pos hstr]
    exact ⟨hc, hl, h4, h5⟩
  · rw [if_neg hstr]
    have hmark : ∀ r ∈ [(⟨"tag-0", TagValue.str b, t⟩ : Row)],
        r.tagname ≠ "tag-4" ∧ r.tagname ≠ "tag-5" := by
      intro r hr
      simp only [List.mem_cons, List.not_mem_nil, or_false] at hr
      subst hr
      exact ⟨by simp, by simp⟩
    refine ⟨?_, ?_, ?_, ?_⟩
    · show s.cumulative_data = recomputeView (s.data ++ [⟨"tag-0", TagValue.str b, t⟩])
      rw [recomputeView_append_irrelevant _ _ hmark]
      exact hc
    · show ((s.data ++ [(⟨"tag-0", TagValue.str b, t⟩ : Row)]).filter
            fun r => r.tagname == "tag-4").length =
        ((s.data ++ [(⟨"tag-0", TagValue.str b, t⟩ : Row)]).filter
            fun r => r.tagname == "tag-5").length
      simp only [List.filter_append]
      simp [hl]
    · intro r hr hname
      rcases List.mem_append.mp hr with hmem | hmem
      · exact h4 r hmem hname
      · simp only [List.mem_cons, List.not_mem_nil, or_false] at hmem
        subst hmem
        simp at hname
    · intro r hr hname
      rcases List.mem_append.mp hr with hmem | hmem
      · exact h5 r hmem hname
      · simp only [List.mem_cons, List.not_mem_nil, or_false] at hmem
        subst hmem
        simp at hname

theorem inv_tick (s : AppState) (cfg : Config) (t : ℕ) (n1 n2 n3 : ℤ)
    (hcfg : validConfig cfg) (hinv : StateInv s) : StateInv (tickStep s cfg t n1 n2 n3) := by
  obtain ⟨hc, hl, h4, h5⟩ := hinv
  obtain ⟨_, _, _, _, _, _, hins, _⟩ := hcfg
  obtain ⟨v1, v2, v3, hv1, hv2, hv3, hgen⟩ := generate_shape t cfg n1 n2 n3
  have hf4 : ((s.data ++ generate_interval_data t cfg n1 n2 n3).filter
        fun r => r.tagname == "tag-4") =
      (s.data.filter fun r => r.tagname == "tag-4") ++
        [⟨"tag-4", TagValue.num (v1 + v2 + v3), t⟩] := by
    rw [List.filter_append, hgen]
    simp
  have hf5 : ((s.data ++ generate_interval_data t cfg n1 n2 n3).filter
        fun r => r.tagname == "tag-5") =
      (s.data.filter fun r => r.tagname == "tag-5") ++
        [⟨"tag-5", TagValue.num (cfg.inspections_per_interval : ℤ), t⟩] := by
    rw [List.filter_append, hgen]
    simp
  have hne : ((s.data ++ generate_interval_data t cfg n1 n2 n3).filter
      fun r => r.tagname == "tag-4") ≠ [] := by
    rw [hf4]; simp
  have hup : tickStep s cfg t n1 n2 n3 =
      { s with data := s.data ++ generate_interval_data t cfg n1 n2 n3,
               cumulative_data :=
                 recomputeView (s.data ++ generate_interval_data t cfg n1 n2 n3) } := by
    unfold tickStep
    exact update_cumulative_of_tag4_nonempty _ hne
  rw [hup]
  refine ⟨rfl, ?_, ?_, ?_⟩
  · show ((s.data ++ generate_interval_data t cfg n1 n2 n3).filter
        fun r => r.tagname == "tag-4").length = _
    rw [hf4, hf5]
    simp [hl]
  · intro r hr hname
    rcases List.mem_append.mp hr with hmem | hmem
    · exact h4 r hmem hname
    · rw [hgen] at hmem
      simp only [List.mem_cons, List.not_mem_nil, or_false] at hmem
      rcases hmem with rfl | rfl | rfl | rfl | rfl
      · simp at hname
      · simp at hname
      · simp at hname
      · exact ⟨v1 + v2 + v3, rfl, by linarith⟩
      · simp at hname
  · intro r hr hname
    rcases List.mem_append.mp hr with hmem | hmem
    · exact h5 r hmem hname
    · rw [hgen] at hmem
      simp only [List.mem_cons, List.not_mem_nil, or_false] at hmem
      rcases hmem with rfl | rfl | rfl | rfl | rfl
      · simp at hname
      · simp at hname
      · simp at hname
      · simp at hname
      · exact ⟨(cfg.inspections_per_interval : ℤ), rfl, by exact_mod_cast hins⟩

theorem reachable_inv (s : AppState) (hs : Reachable s) : StateInv s := by
  induction hs with
  | init => exact ⟨rfl, rfl, by simp [initialState], by simp [initialState]⟩
  | press s b t hs ih => exact inv_press s b t ih
  | tick s cfg t n1 n2 n3 hs hcfg h1 h2 h3 ih => exact inv_tick s cfg t n1 n2 n3 hcfg ih

theorem sum_take_mono (l : List ℤ) (hl : ∀ x ∈ l, 0 ≤ x) (i j : ℕ) (hij : i ≤ j) :
    (l.take i).sum ≤ (l.take j).sum := by
  have h1 : (l.take j).take i = l.take i := by rw [List.take_take, min_eq_left hij]
  have h2 := List.sum_take_add_sum_drop (l.take j) i
  rw [h1] at h2
  have h3 : 0 ≤ ((l.take j).drop i).sum :=
    List.sum_nonneg fun x hx => hl x (List.take_subset j l (List.drop_subset i _ hx))
  linarith

theorem prefixTotal_mono (td : List Row)
    (h : ∀ r ∈ td, ∃ n : ℤ, r.tagvalue = TagValue.num n ∧ 0 ≤ n)
    (i j : ℕ) (hij : i ≤ j) : prefixTotal td i ≤ prefixTotal td j := by
  unfold prefixTotal
  rw [List.map_take, List.map_take]
  apply sum_take_mono
  · intro x hx
    obtain ⟨r, hr, hfx⟩ := List.mem_map.mp hx
    obtain ⟨n, hv, hn⟩ := h r hr
    rw [← hfx]
    simpa [hv, numVal] using hn
  · omega

theorem prefixTotal_bound (td : List Row) (c : ℤ) (hc : 0 ≤ c)
    (h : ∀ r ∈ td, ∃ n : ℤ, r.tagvalue = TagValue.num n ∧ c ≤ n)
    (i : ℕ) (hi : i < td.length) : c ≤ prefixTotal td i := by
  have h0 : c ≤ prefixTotal td 0 := by
    cases td with
    | nil => simp at hi
    | cons x xs =>
      obtain ⟨n, hv, hn⟩ := h x (by simp)
      simpa [prefixTotal, hv, numVal] using hn
  have hmono := prefixTotal_mono td
    (fun r hr => (h r hr).imp fun n hn => ⟨hn.1, le_trans hc hn.2⟩) 0 i (Nat.zero_le i)
  linarith

theorem mem_cumsumRows_bound (td : List Row) (c : ℤ) (hc : 0 ≤ c)
    (h : ∀ r ∈ td, ∃ n : ℤ, r.tagvalue = TagValue.num n ∧ c ≤ n) :
    ∀ r ∈ cumsumRows none td, ∃ n : ℤ, r.tagvalue = TagValue.num n ∧ c ≤ n := by
  intro r hr
  obtain ⟨i, hget⟩ := List.mem_iff_get?.mp hr
  have hi : i < (cumsumRows none td).length := (List.get?_eq_some.mp hget).choose
  rw [cumsumRows_length] at hi
  have hbase : td.get? i = some (td.get ⟨i, hi⟩) := List.get?_eq_get hi
  have hout := cumsumRows_get?_none td (fun r hr => (h r hr).imp fun n hn => hn.1) i _ hbase
  rw [hget] at hout
  have hr_eq := Option.some.inj hout
  exact ⟨prefixTotal td i, by rw [hr_eq], prefixTotal_bound td c hc h i hi⟩

/-- C7: in every reachable session state, the cumulative view sequence of each
of tag-4 and tag-5 is monotonically non-decreasing in its running-total value
(the generated values being always ≥ 0). -/
theorem cumulative_view_monotone (s : AppState) (hs : Reachable s) (t : String)
    (ht : t = "tag-4" ∨ t = "tag-5") (i j : ℕ) (hij : i ≤ j) (ri rj : Row)
    (hi : (s.cumulative_data.filter fun x => x.tagname == t).get? i = some ri)
    (hj : (s.cumulative_data.filter fun x => x.tagname == t).get? j = some rj) :
    ∃ a b : ℤ, ri.tagvalue = TagValue.num a ∧ rj.tagvalue = TagValue.num b ∧ a ≤ b := by
  obtain ⟨hc, hl, h4, h5⟩ := reachable_inv s hs
  have hwf : ∀ r ∈ s.data.filter (fun x => x.tagname == t),
      ∃ n : ℤ, r.tagvalue = TagValue.num n ∧ 0 ≤ n := by
    intro r hr
    have hm := List.mem_filter.mp hr
    rcases ht with ht' | ht' <;> subst ht'
    · exact h4 r hm.1 (eq_of_beq hm.2)
    · exact (h5 r hm.1 (eq_of_beq hm.2)).imp fun n hn => ⟨hn.1, by linarith [hn.2]⟩
  have hfil : s.cumulative_data.filter (fun x => x.tagname == t) =
      cumsumRows none (s.data.filter fun x => x.tagname == t) := by
    rw [hc]
    exact filter_recomputeView s.data t ht
  rw [hfil] at hi hj
  have hjlen : j < (s.data.filter fun x => x.tagname == t).length := by
    have hlt := (List.get?_eq_some.mp hj).choose
    rwa [cumsumRows_length] at hlt
  have hilen : i < (s.data.filter fun x => x.tagname == t).length :=
    lt_of_le_of_lt hij hjlen
  have hwf' : ∀ r ∈ s.data.filter (fun x => x.tagname == t),
      ∃ n : ℤ, r.tagvalue = TagValue.num n := fun r hr => (hwf r hr).imp fun n hn => hn.1
  have houti := cumsumRows_get?_none _ hwf' i _ (List.get?_eq_get hilen)
  have houtj := cumsumRows_get?_none _ hwf' j _ (List.get?_eq_get hjlen)
  rw [hi] at houti
  rw [hj] at houtj
  have hri := Option.some.inj houti
  have hrj := Option.some.inj houtj
  exact ⟨prefixTotal (s.data.filter fun x => x.tagname == t) i,
    prefixTotal (s.data.filter fun x => x.tagname == t) j,
    by rw [hri], by rw [hrj], prefixTotal_mono _ hwf i j hij⟩

/-- Counterexample to C3 as stated: with zero appended samples the metrics
block renders no metrics at all (the emptiness guard skips the whole block),
so no report with total_inspected = 0 exists — total_inspected is absent, not
reported as zero. -/
theorem metrics_empty_counterexample :
    metricsBlock initialState "Batch-1" = Except.ok none ∧
    ∀ m : Metrics, metricsBlock initialState "Batch-1" ≠ Except.ok (some m) := by
  constructor
  · rfl
  · intro m h
    rw [show metricsBlock initialState "Batch-1" = Except.ok none from rfl] at h
    exact Option.noConfusion (Except.ok.inj h)

/-- C3 (amended): in every reachable session state the metrics computation
never raises (no ZeroDivisionError, KeyError or TypeError); whenever metrics
are rendered, total_inspected is positive and the defect rate equals
100 * total_defects / total_inspected; and when the cumulative view is empty —
in particular with zero appended samples — the guard skips the whole block, so
every metric (total_inspected included) is absent rather than reported as 0.
-/
theorem metrics_division_safe (s : AppState) (hs : Reachable s) (b : String) :
    (∀ e : String, metricsBlock s b ≠ Except.error e) ∧
    (∀ m : Metrics, metricsBlock s b = Except.ok (some m) →
      0 < m.total_inspected ∧
      m.defect_rate = 100 * (m.total_defects : ℚ) / (m.total_inspected : ℚ)) ∧
    (s.cumulative_data = [] → metricsBlock s b = Except.ok none) := by
  obtain ⟨hc, hl, h4, h5⟩ := reachable_inv s hs
  by_cases hguard : (s.data.isEmpty || s.cumulative_data.isEmpty) = true
  · have hmb : metricsBlock s b = Except.ok none := by
      simp [metricsBlock, hguard]
    refine ⟨?_, ?_, ?_⟩
    · intro e h
      rw [hmb] at h
      cases h
    · intro m h
      rw [hmb] at h
      exact Option.noConfusion (Except.ok.inj h)
    · intro _
      exact hmb
  · have hg : (s.data.isEmpty || s.cumulative_data.isEmpty) = false := by
      simpa using hguard
    have hcune : s.cumulative_data ≠ [] := by
      intro hnil
      rw [hnil] at hg
      simp at hg
    have h4' : ∀ r ∈ s.data.filter (fun x => x.tagname == "tag-4"),
        ∃ n : ℤ, r.tagvalue = TagValue.num n ∧ 0 ≤ n := fun r hr =>
      h4 r (List.mem_filter.mp hr).1 (eq_of_beq (List.mem_filter.mp hr).2)
    have h5' : ∀ r ∈ s.data.filter (fun x => x.tagname == "tag-5"),
        ∃ n : ℤ, r.tagvalue = TagValue.num n ∧ 100 ≤ n := fun r hr =>
      h5 r (List.mem_filter.mp hr).1 (eq_of_beq (List.mem_filter.mp hr).2)
    have hview : s.cumulative_data =
        cumsumRows none (s.data.filter fun x => x.tagname == "tag-4") ++
        cumsumRows none (s.data.filter fun x => x.tagname == "tag-5") := by
      rw [hc, recomputeView_eq]
    have htd5 : s.data.filter (fun x => x.tagname == "tag-5") ≠ [] := by
      intro hnil
      have h40 : (s.data.filter fun x => x.tagname == "tag-4").length = 0 := by
        rw [hl, hnil]
        rfl
      have h4nil := List.length_eq_zero.mp h40
      apply hcune
      rw [hview, h4nil, hnil]
      rfl
    have htd4 : s.data.filter (fun x => x.tagname == "tag-4") ≠ [] := by
      intro hnil
      have h50 : (s.data.filter fun x => x.tagname == "tag-5").length = 0 := by
        rw [← hl, hnil]
        rfl
      have h5nil := List.length_eq_zero.mp h50
      apply hcune
      rw [hview, h5nil, hnil]
      rfl
    have hcs5ne : cumsumRows none (s.data.filter fun x => x.tagname == "tag-5") ≠ [] := by
      intro hnil
      apply htd5
      apply List.length_eq_zero.mp
      rw [← cumsumRows_length none, hnil]
      rfl
    have hcs4ne : cumsumRows none (s.data.filter fun x => x.tagname == "tag-4") ≠ [] := by
      intro hnil
      apply htd4
      apply List.length_eq_zero.mp
      rw [← cumsumRows_length none, hnil]
      rfl
    have hl5 : lastByTag s.cumulative_data "tag-5" =
        (cumsumRows none (s.data.filter fun x => x.tagname == "tag-5")).getLast? := by
      simp only [lastByTag]
      rw [hc, filter_recomputeView s.data "tag-5" (Or.inr rfl)]
    have hl4 : lastByTag s.cumulative_data "tag-4" =
        (cumsumRows none (s.data.filter fun x => x.tagname == "tag-4")).getLast? := by
      simp only [lastByTag]
      rw [hc, filter_recomputeView s.data "tag-4" (Or.inl rfl)]
    have e5 := List.getLast?_eq_getLast _ hcs5ne
    have e4 := List.getLast?_eq_getLast _ hcs4ne
    obtain ⟨n5, hv5, hb5⟩ := mem_cumsumRows_bound _ 100 (by norm_num) h5' _
      (List.getLast_mem hcs5ne)
    obtain ⟨n4, hv4, hb4⟩ := mem_cumsumRows_bound _ 0 (by norm_num) h4' _
      (List.getLast_mem hcs4ne)
    have hn5z : ¬ n5 = 0 := by linarith
    have hmb : metricsBlock s b =
        Except.ok (some ⟨n5, n4, (n4 : ℚ) / (n5 : ℚ) * 100, b⟩) := by
      rw [metricsBlock, hg]
      simp only [Bool.false_eq_true, if_false]
      rw [hl5, hl4, e5, e4]
      simp only [hv5, hv4]
      rw [if_neg hn5z]
    refine ⟨?_, ?_, ?_⟩
    · intro e h
      rw [hmb] at h
      cases h
    · intro m h
      rw [hmb] at h
      have hm := Option.some.inj (Except.ok.inj h)
      subst hm
      refine ⟨by simpa using lt_of_lt_of_le (by norm_num) hb5, ?_⟩
      show (n4 : ℚ) / (n5 : ℚ) * 100 = 100 * (n4 : ℚ) / (n5 : ℚ)
      ring
    · intro h
      exact absurd h hcune

/-- C8: two consecutive start transitions with no intervening stop each append
a tag-0 marker (value = the batch name, timestamp = the recorded start time),
the second timestamp the same or later, both retained in the log in order. -/
theorem double_start_two_markers (s : AppState) (b1 b2 : String) (t1 t2 : ℕ)
    (h12 : t1 ≤ t2) :
    (startStream (startStream s b1 t1) b2 t2).data =
      s.data ++ [⟨"tag-0", TagValue.str b1, t1⟩, ⟨"tag-0", TagValue.str b2, t2⟩] ∧
    (startStream (startStream s b1 t1) b2 t2).start_time = t2 ∧ t1 ≤ t2 := by
  refine ⟨?_, rfl, h12⟩
  simp [startStream]

/-- Witness for C8: two starts from the initial state at times 0 and 1. -/
theorem double_start_two_markers_witness :
    (startStream (startStream initialState "Batch-1" 0) "Batch-2" 1).data =
      initialState.data ++
        [⟨"tag-0", TagValue.str "Batch-1", 0⟩, ⟨"tag-0", TagValue.str "Batch-2", 1⟩] ∧
    (startStream (startStream initialState "Batch-1" 0) "Batch-2" 1).start_time = 1 ∧
    (0 : ℕ) ≤ 1 :=
  double_start_two_markers initialState "Batch-1" "Batch-2" 0 1 (by norm_num)

theorem generate_cfgW_eval (ts : ℕ) :
    generate_interval_data ts cfgW 0 0 0 =
      [ ⟨"tag-1", TagValue.num 5, ts⟩,
        ⟨"tag-2", TagValue.num 7, ts⟩,
        ⟨"tag-3", TagValue.num 4, ts⟩,
        ⟨"tag-4", TagValue.num 16, ts⟩,
        ⟨"tag-5", TagValue.num 500, ts⟩ ] := by
  have e1 : pyInt (((500 : ℕ) : ℚ) * ((1 : ℚ) / 100)) = 5 := by
    rw [pyInt, if_pos (by norm_num), Int.floor_eq_iff]
    norm_num
  have e2 : pyInt (((500 : ℕ) : ℚ) * ((3 / 2 : ℚ) / 100)) = 7 := by
    rw [pyInt, if_pos (by norm_num), Int.floor_eq_iff]
    norm_num
  have e3 : pyInt (((500 : ℕ) : ℚ) * ((4 / 5 : ℚ) / 100)) = 4 := by
    rw [pyInt, if_pos (by norm_num), Int.floor_eq_iff]
    norm_num
  simp only [generate_interval_data, cfgW, e1, e2, e3]
  norm_num

theorem sW_reachable : Reachable sW :=
  Reachable.tick _ cfgW 1 0 0 0
    (Reachable.press _ "Batch-1" 0 Reachable.init)
    (by refine ⟨?_, ?_, ?_, ?_, ?_, ?_, ?_, ?_⟩ <;> norm_num [cfgW])
    ⟨by norm_num, by norm_num⟩ ⟨by norm_num, by norm_num⟩ ⟨by norm_num, by norm_num⟩

theorem sW_eval : sW =
    ⟨true,
      [ ⟨"tag-0", TagValue.str "Batch-1", 0⟩,
        ⟨"tag-1", TagValue.num 5, 1⟩,
        ⟨"tag-2", TagValue.num 7, 1⟩,
        ⟨"tag-3", TagValue.num 4, 1⟩,
        ⟨"tag-4", TagValue.num 16, 1⟩,
        ⟨"tag-5", TagValue.num 500, 1⟩ ],
      0,
      [ ⟨"tag-4", TagValue.num 16, 1⟩, ⟨"tag-5", TagValue.num 500, 1⟩ ]⟩ := by
  have h : sW = update_cumulative_data
      ⟨true,
        [(⟨"tag-0", TagValue.str "Batch-1", 0⟩ : Row)] ++ generate_interval_data 1 cfgW 0 0 0,
        0, []⟩ := rfl
  rw [h, generate_cfgW_eval 1]
  decide

/-- Witness for C7 at the reachable state `sW`, tag-4 positions 0 ≤ 0. -/
theorem cumulative_view_monotone_witness :
    ∃ a b : ℤ, (⟨"tag-4", TagValue.num 16, 1⟩ : Row).tagvalue = TagValue.num a ∧
      (⟨"tag-4", TagValue.num 16, 1⟩ : Row).tagvalue = TagValue.num b ∧ a ≤ b := by
  have hget : (sW.cumulative_data.filter fun x => x.tagname == "tag-4").get? 0 =
      some ⟨"tag-4", TagValue.num 16, 1⟩ := by
    rw [sW_eval]
    decide
  exact cumulative_view_monotone sW sW_reachable "tag-4" (Or.inl rfl) 0 0 (le_refl 0)
    _ _ hget hget

/-- Witness for C3 (amended) at the reachable state `sW`. -/
theorem metrics_division_safe_witness :
    (∀ e : String, metricsBlock sW "Batch-1" ≠ Except.error e) ∧
    (∀ m : Metrics, metricsBlock sW "Batch-1" = Except.ok (some m) →
      0 < m.total_inspected ∧
      m.defect_rate = 100 * (m.total_defects : ℚ) / (m.total_inspected : ℚ)) ∧
    (sW.cumulative_data = [] → metricsBlock sW "Batch-1" = Except.ok none) :=
  metrics_division_safe sW sW_reachable "Batch-1"
